import Mathlib

/-
Verification of the AutoSocial discovery, rate-budgeting, scoring and
clustering pipeline.  The definitions below are shallow embeddings of the
TypeScript sources:

  * src/providers/RedditProvider.ts      (namespace RedditProvider)
  * src/services/TrendingAnalysisService (namespace TrendingAnalysisService)
  * src/app/api/trending/discover/route  (namespace DiscoverRoute)

JavaScript numbers are modelled as rationals (ℚ); integer counters as ℤ/ℕ;
wall-clock times are rationals in epoch milliseconds supplied explicitly
(an injected clock), since the code reads Date.now().
-/

set_option maxRecDepth 4000
set_option linter.unnecessarySeqFocus false

/-- JavaScript Math.round: round half towards positive infinity. -/
def jsRound (q : ℚ) : ℤ := ⌊q + 1/2⌋

namespace RedditProvider

/-- Raw Reddit API post (interface RedditPost in RedditProvider.ts).
The field upvote_frac is upvote_ratio in the source; the media / preview
objects are modelled by the two optional URL fields the code reads. -/
structure RedditPost where
  id : String
  title : String
  selftext : String
  author : String
  subreddit : String
  score : ℤ
  upvote_frac : ℚ
  num_comments : ℤ
  url : String
  permalink : String
  thumbnail : String
  created_utc : ℚ
  over_18 : Bool
  stickied : Bool
  is_video : Bool
  media_reddit_video_fallback_url : Option String
  preview_first_image_source_url : Option String
deriving DecidableEq

/-- Normalized post (interface TrendingPost in types/trending.ts).
Timestamps are epoch milliseconds as rationals. -/
structure TrendingPost where
  id : String
  platform : String
  platform_post_id : String
  author_username : String
  author_display_name : String
  author_followers : ℤ
  content : String
  media_urls : List String
  hashtags : List String
  mentions : List String
  post_url : String
  engagement_score : ℤ
  likes : ℤ
  shares : ℤ
  comments : ℤ
  views : ℤ
  published_at : ℚ
  discovered_at : ℚ
  trend_category : Option String
  sentiment : Option String
deriving DecidableEq

/-- JavaScript String.prototype.toLowerCase, as a character map (all
strings this development evaluates are ASCII). -/
def jsToLower (s : String) : String := String.mk (s.data.map Char.toLower)

/-- Char-list scan for an occurrence of pat as a contiguous block. -/
def containsSubAux (pat : List Char) : List Char → Bool
  | [] => pat.isEmpty
  | c :: cs => pat.isPrefixOf (c :: cs) || containsSubAux pat cs

/-- Substring containment, the JavaScript String.prototype.includes. -/
def containsSub (s pat : String) : Bool := containsSubAux pat.toList s.toList

/-- JavaScript regex word character, the character class of backslash-w. -/
def wordChar (c : Char) : Bool := c.isAlphanum || c == '_'

/-- Global regex matching of a literal tag followed by one or more word
characters (the patterns used on titles), scanning left to right and
resuming after each match, as String.prototype.match with the g flag does. -/
def scanTaggedAux (tag : List Char) : ℕ → List Char → List String
  | 0, _ => []
  | _ + 1, [] => []
  | fuel + 1, c :: cs =>
    if (c :: cs).take tag.length = tag then
      if (((c :: cs).drop tag.length).takeWhile wordChar).length = 0 then
        scanTaggedAux tag fuel cs
      else
        String.mk (tag ++ ((c :: cs).drop tag.length).takeWhile wordChar) ::
          scanTaggedAux tag fuel (((c :: cs).drop tag.length).drop
            ((((c :: cs).drop tag.length).takeWhile wordChar).length))
    else scanTaggedAux tag fuel cs

/-- Entry point of the scan: every step of the scan consumes at least one
character, so the input length is enough fuel. -/
def scanTagged (tag : List Char) (l : List Char) : List String :=
  scanTaggedAux tag l.length l

/-- Quality filter isValidPost of RedditProvider.ts. -/
def isValidPost (post : RedditPost) : Bool :=
  post.title ≠ "" &&
  5 < post.title.length &&
  !post.stickied &&
  !post.over_18 &&
  50 < post.score &&
  5 < post.num_comments &&
  (6/10 : ℚ) < post.upvote_frac &&
  post.author ≠ "[deleted]" &&
  post.subreddit ≠ "" &&
  !containsSub (jsToLower post.title) "test"

/-- Recency bonus for viral scoring, calculateRecencyBonus. -/
def calculateRecencyBonus (nowMs : ℚ) (createdUtc : ℚ) : ℚ :=
  let hoursAgo : ℚ := (nowMs / 1000 - createdUtc) / 3600
  if hoursAgo ≤ 2 then 100
  else if hoursAgo ≤ 6 then 50
  else if hoursAgo ≤ 12 then 25
  else 0

/-- Viral engagement score for a Reddit post, calculateEngagementScore of
RedditProvider.ts.  The JS truthiness test on upvote_ratio is an equality
test against 0 here. -/
def calculateEngagementScore (post : RedditPost) (nowMs : ℚ) : ℤ :=
  let adjustedUpvotes : ℚ :=
    (post.score : ℚ) * (if post.upvote_frac = 0 then 1/2 else post.upvote_frac)
  let commentWeight : ℚ := (post.num_comments : ℚ) * 3
  let ratioBonus : ℚ :=
    if (8/10 : ℚ) < post.upvote_frac then (post.score : ℚ) * (1/2) else 0
  let recencyBonus := calculateRecencyBonus nowMs post.created_utc
  jsRound (adjustedUpvotes + commentWeight + ratioBonus + recencyBonus)

/-- Category assignment, categorizeRedditPost. -/
def categorizeRedditPost (post : RedditPost) : String :=
  let subreddit := jsToLower post.subreddit
  let content := jsToLower (post.title ++ " " ++ post.selftext)
  let hits := fun (terms : List String) =>
    terms.any (fun t => containsSub subreddit t || containsSub content t)
  if hits ["technology", "programming", "webdev", "javascript", "python",
      "machinelearning", "artificial", "crypto", "bitcoin", "ethereum"] then
    "Technology"
  else if hits ["movies", "television", "music", "entertainment", "celebrity",
      "netflix", "gaming", "games"] then
    "Entertainment"
  else if hits ["sports", "nfl", "nba", "soccer", "football", "basketball",
      "hockey", "baseball"] then
    "Sports"
  else if hits ["news", "worldnews", "politics", "political", "election",
      "government"] then
    "News & Politics"
  else if hits ["business", "finance", "investing", "stocks", "economy",
      "entrepreneur", "startup"] then
    "Business"
  else if hits ["food", "fitness", "fashion", "travel", "health", "cooking",
      "style", "beauty"] then
    "Lifestyle"
  else if hits ["meme", "dankmemes", "funny", "viral", "internetculture",
      "socialmedia"] then
    "Social Media"
  else "General"

/-- Media URL extraction, extractMediaUrls. -/
def extractMediaUrls (post : RedditPost) : List String :=
  (if post.url ≠ "" && (containsSub post.url ".jpg" || containsSub post.url ".png"
      || containsSub post.url ".gif" || containsSub post.url ".mp4")
   then [post.url] else []) ++
  (match post.media_reddit_video_fallback_url with
   | some u => [u] | none => []) ++
  (match post.preview_first_image_source_url with
   | some u => [u.replace "&amp;" "&"] | none => []) ++
  (if post.thumbnail ≠ "" && post.thumbnail.startsWith "http"
   then [post.thumbnail] else [])

/-- Keyword sentiment heuristic, analyzeSentiment of RedditProvider.ts. -/
def analyzeSentiment (text : String) : String :=
  let positiveWords := ["amazing", "awesome", "great", "excellent", "fantastic",
    "wonderful", "love", "best", "incredible", "brilliant"]
  let negativeWords := ["terrible", "awful", "horrible", "worst", "hate",
    "disgusting", "disappointed", "failed", "disaster", "tragic"]
  let lowerText := jsToLower text
  let positiveCount := (positiveWords.filter (fun w => containsSub lowerText w)).length
  let negativeCount := (negativeWords.filter (fun w => containsSub lowerText w)).length
  if negativeCount < positiveCount then "positive"
  else if positiveCount < negativeCount then "negative"
  else "neutral"

/-- Normalization of one Reddit post, transformPost.  nowMs is the injected
Date.now() clock. -/
def transformPost (post : RedditPost) (nowMs : ℚ) : TrendingPost :=
  let hashtags :=
    ("#" ++ jsToLower post.subreddit) :: scanTagged ['#'] post.title.toList
  let mentions := scanTagged ['u', '/'] post.title.toList
  let engagementScore := calculateEngagementScore post nowMs
  let category := categorizeRedditPost post
  let mediaUrls := extractMediaUrls post
  let content :=
    if post.selftext ≠ "" then post.title ++ "\n\n" ++ post.selftext else post.title
  { id := "reddit_" ++ post.id
    platform := "reddit"
    platform_post_id := post.subreddit ++ "_" ++ post.id
    author_username := post.author
    author_display_name := post.author
    author_followers := 0
    content := content
    media_urls := mediaUrls
    hashtags := hashtags
    mentions := mentions
    post_url := "https://www.reddit.com" ++ post.permalink
    engagement_score := engagementScore
    likes := post.score
    shares := post.num_comments
    comments := post.num_comments
    views := 0
    published_at := post.created_utc * 1000
    discovered_at := nowMs
    trend_category := some category
    sentiment := some (analyzeSentiment post.title) }

/-- Page filter and map, transformRedditData.  The trailing null filter of
the source is vacuous because transformPost is total. -/
def transformRedditData (posts : List RedditPost) (nowMs : ℚ) : List TrendingPost :=
  (posts.filter isValidPost).map (fun p => transformPost p nowMs)


/-! Rate limiting state and the checkRateLimit step (RedditProvider.ts,
lines 38-82).  The mutable statics requestTimestamps / lastRequestTime are
the fields of RateState; a call of checkRateLimit is modelled by its entry
time now and the time pushTime at which the awaited sleeps have elapsed and
Date.now() is pushed.  pushTime is at least now plus the three sleeps the
code performs (negative JS timeouts fire immediately, matching truncated
ℕ subtraction). -/

def MAX_REQUESTS_PER_MINUTE : ℕ := 100

def MAX_REQUESTS_PER_10_MIN : ℕ := 996

def MAX_ITEMS_PER_SUBREDDIT : ℕ := 1000

def ITEMS_PER_REQUEST : ℕ := 100

structure RateState where
  requestTimestamps : List ℕ
  lastRequestTime : ℕ
deriving DecidableEq

/-- Drop timestamps older than 10 minutes (line 54). -/
def cleanTimestamps (ts : List ℕ) (now : ℕ) : List ℕ :=
  ts.filter (fun t => now - t < 10 * 60 * 1000)

/-- Requests within the last minute (line 59). -/
def recentCount (ts : List ℕ) (now : ℕ) : ℕ :=
  (ts.filter (fun t => now - t < 60 * 1000)).length

/-- Sleep performed when the per-minute ceiling is hit (lines 63-67). -/
def minuteWait (cl : List ℕ) (now : ℕ) : ℕ :=
  if MAX_REQUESTS_PER_MINUTE ≤ recentCount cl now then
    60000 - (now - cl.getD (cl.length - MAX_REQUESTS_PER_MINUTE) 0)
  else 0

/-- Sleep performed when the 10-minute ceiling is hit (lines 69-73). -/
def tenMinuteWait (cl : List ℕ) (now : ℕ) : ℕ :=
  if MAX_REQUESTS_PER_10_MIN ≤ cl.length then
    10 * 60 * 1000 - (now - cl.getD 0 0)
  else 0

/-- Courtesy 600 ms spacing between requests (lines 76-78). -/
def courtesyWait (lastRequestTime now : ℕ) : ℕ :=
  if now - lastRequestTime < 600 then 600 - (now - lastRequestTime) else 0

/-- Total sleep a checkRateLimit call performs before pushing. -/
def requiredWait (s : RateState) (now : ℕ) : ℕ :=
  minuteWait (cleanTimestamps s.requestTimestamps now) now +
  tenMinuteWait (cleanTimestamps s.requestTimestamps now) now +
  courtesyWait s.lastRequestTime now

/-- State update of one checkRateLimit call (lines 54 and 80-81). -/
def checkRateLimit (s : RateState) (now pushTime : ℕ) : RateState :=
  { requestTimestamps := cleanTimestamps s.requestTimestamps now ++ [pushTime]
    lastRequestTime := pushTime }

def initialRateState : RateState := { requestTimestamps := [], lastRequestTime := 0 }

/-- A run of checkRateLimit calls; each event is (entry time, push time). -/
def runRateLimit (s : RateState) : List (ℕ × ℕ) → RateState
  | [] => s
  | e :: es => runRateLimit (checkRateLimit s e.1 e.2) es

/-- Well-formed run: calls are sequential (each entered no earlier than the
previous call finished) and each push happens only after the sleeps the
code awaits. -/
def validEvents : RateState → List (ℕ × ℕ) → Prop
  | _, [] => True
  | s, e :: es =>
    s.lastRequestTime ≤ e.1 ∧ e.1 + requiredWait s e.1 ≤ e.2 ∧
    validEvents (checkRateLimit s e.1 e.2) es

/-- Membership of timestamp x in the rolling window of width w ending at t. -/
def inWindow (w t x : ℕ) : Bool := x ≤ t && t - x < w

/-- Number of recorded request timestamps inside the rolling window. -/
def windowCount (l : List ℕ) (w t : ℕ) : ℕ := l.countP (inWindow w t)

/-! Pagination loop of fetchMaxViralPosts (lines 90-177).  The network is
an oracle list of page responses, consumed one per request.  On HTTP 429
the code sleeps backoffTime and retries the same page (page-- then page++);
on any other error it breaks, returning what it has; on an empty page or a
missing cursor it breaks.  The loop is modelled by recursion on the oracle:
if the oracle is exhausted while the loop still wants to issue requests the
outcome is outOfResponses, recording the page it was still trying to fetch.
The second component of the result is the log of backoff sleeps, in order. -/

inductive PageResponse where
  | http429 : PageResponse
  | httpError : PageResponse
  | ok (children : List RedditPost) (cursorAfter : Option String) : PageResponse
deriving DecidableEq

inductive FetchResult where
  | done (posts : List TrendingPost) : FetchResult
  | outOfResponses (posts : List TrendingPost) (page : ℕ) (cursor : Option String) : FetchResult
deriving DecidableEq

def FetchResult.posts : FetchResult → List TrendingPost
  | .done ps => ps
  | .outOfResponses ps _ _ => ps

def FetchResult.isDone : FetchResult → Bool
  | .done _ => true
  | .outOfResponses _ _ _ => false

/-- Math.ceil(targetItems / ITEMS_PER_REQUEST) with targetItems =
min maxItems MAX_ITEMS_PER_SUBREDDIT (lines 96-97). -/
def pagesNeeded (maxItems : ℕ) : ℕ :=
  (min maxItems MAX_ITEMS_PER_SUBREDDIT + (ITEMS_PER_REQUEST - 1)) / ITEMS_PER_REQUEST

/-- Math.min(1000 * Math.pow(2, page), 30000), the 429 backoff (line 133). -/
def backoffTime (page : ℕ) : ℕ := min (1000 * 2 ^ page) 30000

def fetchPagesGo (nowMs : ℚ) (pages : ℕ) :
    List PageResponse → ℕ → List TrendingPost → Option String →
    FetchResult × List ℕ
  | resps, page, acc, cursor =>
    if pages ≤ page then (.done acc, [])
    else
      match resps with
      | [] => (.outOfResponses acc page cursor, [])
      | .http429 :: rest =>
        let r := fetchPagesGo nowMs pages rest page acc cursor
        (r.1, backoffTime page :: r.2)
      | .httpError :: _ => (.done acc, [])
      | .ok children cursorAfter :: rest =>
        if children.length = 0 then (.done acc, [])
        else
          let acc2 := acc ++ transformRedditData children nowMs
          match cursorAfter with
          | none => (.done acc2, [])
          | some a =>
            if a = "" then (.done acc2, [])
            else
              let r := fetchPagesGo nowMs pages rest (page + 1) acc2 (some a)
              (r.1, r.2)

/-- Final descending sort by engagement score (line 163). -/
def sortByEngagement (posts : List TrendingPost) : List TrendingPost :=
  posts.mergeSort (fun a b => decide (b.engagement_score ≤ a.engagement_score))

/-- fetchMaxViralPosts: run the pagination loop from page 0 with no cursor
and sort the collected posts.  Returns the (possibly unfinished) outcome
and the log of backoff sleeps. -/
def fetchMaxViralPosts (maxItems : ℕ) (nowMs : ℚ) (resps : List PageResponse) :
    FetchResult × List ℕ :=
  let r := fetchPagesGo nowMs (pagesNeeded maxItems) resps 0 [] none
  (match r.1 with
   | .done ps => .done (sortByEngagement ps)
   | .outOfResponses ps page cur => .outOfResponses ps page cur,
   r.2)

/-- Seen-set filter of removeDuplicatePosts (lines 476-485); the identical
function also appears in TrendingAnalysisService.ts (lines 190-200).  The
mutable Set plus Array.filter is modelled by recursion with an explicit
seen list. -/
def removeDupAux (seen : List String) : List TrendingPost → List TrendingPost
  | [] => []
  | p :: rest =>
    if p.platform_post_id ∈ seen then removeDupAux seen rest
    else p :: removeDupAux (p.platform_post_id :: seen) rest

def removeDuplicatePosts (posts : List TrendingPost) : List TrendingPost :=
  removeDupAux [] posts

end RedditProvider

namespace TrendingAnalysisService

/-- Twitter public_metrics of one tweet, as destructured in
calculateEngagementScore of TrendingAnalysisService.ts (lines 825-845);
missing fields default to 0 there, so the record is total. -/
structure PublicMetrics where
  like_count : ℕ
  retweet_count : ℕ
  reply_count : ℕ
  quote_count : ℕ
  bookmark_count : ℕ
  impression_count : ℕ
deriving DecidableEq

/-- Comprehensive engagement scoring of TrendingAnalysisService.ts. -/
def calculateEngagementScore (m : PublicMetrics) : ℤ :=
  jsRound ((m.like_count : ℚ) * 1 + (m.retweet_count : ℚ) * 3 +
    (m.reply_count : ℚ) * 4 + (m.quote_count : ℚ) * 3 +
    (m.bookmark_count : ℚ) * 2 + (m.impression_count : ℚ) * (1 / 1000))

/-- Database row of a trending post as consumed by groupPostsByTrends and
calculateSentimentDistribution (typed any[] in the source); only the fields
those functions read are modelled, each optional since rows are untyped. -/
structure DbPost where
  platform : String
  platform_post_id : Option String
  trend_category : Option String
  content : Option String
  hashtags : Option (List String)
  sentiment : Option String
deriving DecidableEq

/-- JavaScript (x || default) for an optional string field. -/
def orFalsy (o : Option String) (d : String) : String :=
  match o with
  | some s => if s = "" then d else s
  | none => d

/-- countOccurrences: fold into an insertion-ordered association list, as a
JS object with string keys enumerates in insertion order. -/
def insertCount : List (String × ℕ) → String → List (String × ℕ)
  | [], w => [(w, 1)]
  | (k, n) :: rest, w =>
    if k = w then (k, n + 1) :: rest else (k, n) :: insertCount rest w

def countOccurrences (l : List String) : List (String × ℕ) :=
  l.foldl insertCount []

/-- extractKeywords: lowercase, split on whitespace, drop short and stop
words, count, sort keys by descending count (Array.sort is stable), top 10. -/
def extractKeywords (text : String) : List String :=
  let words := (RedditProvider.jsToLower text).split (fun c => c.isWhitespace)
  let stopWords := ["the", "is", "at", "which", "on", "and", "a", "to",
    "are", "as", "was", "with", "for"]
  let keywords := words.filter (fun w => 3 < w.length && !(stopWords.contains w))
  let keywordCounts := countOccurrences keywords
  ((keywordCounts.mergeSort (fun a b => decide (b.2 ≤ a.2))).map Prod.fst).take 10

/-- Candidate group keys for a Reddit row (groupPostsByTrends, lines 737-750). -/
def redditGroupKeys (post : DbPost) : List String :=
  let category := orFalsy post.trend_category "General"
  let subreddit :=
    match post.platform_post_id with
    | some pid =>
      let first := ((pid.splitOn "_").headD "")
      if first = "" then "unknown" else first
    | none => "unknown"
  let keywords := (extractKeywords (orFalsy post.content "")).take 3
  [category, "r/" ++ subreddit] ++ keywords

/-- Candidate group keys for a non-Reddit row (lines 751-760). -/
def otherGroupKeys (post : DbPost) : List String :=
  let hashtags := match post.hashtags with | some hs => hs | none => []
  let category := orFalsy post.trend_category "General"
  hashtags.take 2 ++ [category]

/-- First valid candidate key, else category, else general (line 763). -/
def assignKey (post : DbPost) : String :=
  let groupKeys :=
    if post.platform = "reddit" then redditGroupKeys post else otherGroupKeys post
  match groupKeys.find? (fun k => k ≠ "" && k ≠ "undefined") with
  | some k => k
  | none => orFalsy post.trend_category "general"

/-- groups[key].push(post), creating the key in insertion order if new. -/
def addToGroup : List (String × List DbPost) → String → DbPost →
    List (String × List DbPost)
  | [], key, p => [(key, [p])]
  | (k, ps) :: rest, key, p =>
    if k = key then (k, ps ++ [p]) :: rest
    else (k, ps) :: addToGroup rest key p

/-- Assignment pass of groupPostsByTrends (lines 733-769). -/
def rawGroups (posts : List DbPost) : List (String × List DbPost) :=
  posts.foldl (fun gs p => addToGroup gs (assignKey p) p) []

/-- groupPostsByTrends: drop groups of fewer than 2 posts; if none remain,
keep the 5 largest groups (lines 771-787). -/
def groupPostsByTrends (posts : List DbPost) : List (String × List DbPost) :=
  let groups := rawGroups posts
  let filteredGroups := groups.filter (fun g => 2 ≤ g.2.length)
  if filteredGroups.isEmpty then
    (groups.mergeSort (fun a b => decide (b.2.length ≤ a.2.length))).take 5
  else filteredGroups

/-- calculateSentimentDistribution (lines 991-1006): per-label counts over
the group, each divided by the group size. -/
def calculateSentimentDistribution (posts : List DbPost) : ℚ × ℚ × ℚ :=
  let pos := (posts.filter (fun p => p.sentiment = some "positive")).length
  let neg := (posts.filter (fun p => p.sentiment = some "negative")).length
  let neu := (posts.filter (fun p => p.sentiment = some "neutral")).length
  let total := posts.length
  (if 0 < total then (pos : ℚ) / (total : ℚ) else 0,
   if 0 < total then (neg : ℚ) / (total : ℚ) else 0,
   if 0 < total then (neu : ℚ) / (total : ℚ) else 0)

end TrendingAnalysisService

namespace DiscoverRoute

/-- Outcome of the rate gate at the top of the POST handler of
app/api/trending/discover/route.ts (lines 98-113). -/
inductive DiscoveryGateResult where
  | deferred (nextDiscoveryTime : ℚ) : DiscoveryGateResult
  | proceed : DiscoveryGateResult
deriving DecidableEq

/-- minutesSinceLastDiscovery (lines 100-101): defaults to 15 when no
discovery is recorded. -/
def minutesSinceLast (lastDiscovery : Option ℚ) (nowMs : ℚ) : ℚ :=
  match lastDiscovery with
  | some t => (nowMs - t) / (1000 * 60)
  | none => 15

/-- The gate (lines 103-113): defer when under 15 minutes since the last
discovery, reporting nextDiscoveryTime = lastDiscovery + 15 minutes,
otherwise proceed with the fetch. -/
def discoveryRateGate (lastDiscovery : Option ℚ) (nowMs : ℚ) : DiscoveryGateResult :=
  match lastDiscovery with
  | some t =>
    if minutesSinceLast (some t) nowMs < 15 then .deferred (t + 15 * 60 * 1000)
    else .proceed
  | none => .proceed

end DiscoverRoute


/-! Concrete sample data used by witnesses and counterexamples. -/

/-- A Reddit post passing the quality filter; upvote_frac 9/10. -/
def viralPostA : RedditProvider.RedditPost :=
  { id := "a1", title := "Hello World", selftext := "", author := "alice"
    subreddit := "news", score := 100, upvote_frac := 9 / 10, num_comments := 10
    url := "", permalink := "/r/news/a1", thumbnail := "", created_utc := 0
    over_18 := false, stickied := false, is_video := false
    media_reddit_video_fallback_url := none, preview_first_image_source_url := none }

/-- Identical to viralPostA except upvote_frac 7/10. -/
def viralPostB : RedditProvider.RedditPost :=
  { viralPostA with upvote_frac := 7 / 10 }

/-- Identical to viralPostA except a larger score. -/
def viralPostBig : RedditProvider.RedditPost :=
  { viralPostA with score := 200 }

/-- A normalized Twitter post and a Reddit post sharing platform_post_id. -/
def dupPostTwitter : RedditProvider.TrendingPost :=
  { id := "123", platform := "twitter", platform_post_id := "123"
    author_username := "ann", author_display_name := "Ann", author_followers := 5
    content := "tweet text", media_urls := [], hashtags := [], mentions := []
    post_url := "", engagement_score := 10, likes := 1, shares := 2, comments := 3
    views := 4, published_at := 0, discovered_at := 0
    trend_category := none, sentiment := none }

def dupPostReddit : RedditProvider.TrendingPost :=
  { dupPostTwitter with platform := "reddit", content := "reddit text" }

/-- A database row with no sentiment label. -/
def unlabeledPost : TrendingAnalysisService.DbPost :=
  { platform := "reddit", platform_post_id := some "news_a1"
    trend_category := some "Technology", content := none
    hashtags := none, sentiment := none }

/-- A database row with a positive sentiment label. -/
def labeledPost : TrendingAnalysisService.DbPost :=
  { unlabeledPost with sentiment := some "positive" }

/-- Spec-side restatement used for C3: the time-independent part of the
Reddit engagement score (the three counter terms of
RedditProvider.calculateEngagementScore, in source order). -/
def redditBaseScore (p : RedditProvider.RedditPost) : ℚ :=
  (p.score : ℚ) * (if p.upvote_frac = 0 then 1 / 2 else p.upvote_frac) +
  (p.num_comments : ℚ) * 3 +
  (if (8 / 10 : ℚ) < p.upvote_frac then (p.score : ℚ) * (1 / 2) else 0)

/-- A two-page oracle trace in which both pages are full (100 valid posts
each); used to exhibit the missing truncation of fetchMaxViralPosts. -/
def overshootTrace : List RedditProvider.PageResponse :=
  [RedditProvider.PageResponse.ok (List.replicate 100 viralPostA) (some "t2"),
   RedditProvider.PageResponse.ok (List.replicate 100 viralPostA) none]

/-- Spec-side run invariant for C2, relating the mutable limiter state to
the full history of pushed (allowed) request timestamps: the state is
sorted and bounded by the last push, the state is the 10-minute cleaning
of the history, and the history never exceeds either rolling ceiling. -/
def rateInvariant (s : RedditProvider.RateState) (hist : List ℕ) : Prop :=
  s.requestTimestamps.Sorted (· ≤ ·) ∧
  (∀ x ∈ s.requestTimestamps, x ≤ s.lastRequestTime) ∧
  (∀ x ∈ hist, x ≤ s.lastRequestTime) ∧
  (∀ now, s.lastRequestTime ≤ now →
    RedditProvider.cleanTimestamps s.requestTimestamps now =
      RedditProvider.cleanTimestamps hist now) ∧
  (∀ t, RedditProvider.windowCount hist 60000 t ≤ 100 ∧
    RedditProvider.windowCount hist 600000 t ≤ 996)

/-! Theorems. -/

theorem jsRound_mono {q r : ℚ} (h : q ≤ r) : jsRound q ≤ jsRound r :=
  Int.floor_le_floor (by linarith)

/-- C10: for every normalized Reddit post the shares counter equals the
comments counter, and both equal the num_comments field of the raw post,
so shares carry no signal independent of comments for Reddit posts. -/
theorem C10_reddit_shares_eq_comments (p : RedditProvider.RedditPost) (nowMs : ℚ) :
    (RedditProvider.transformPost p nowMs).shares =
      (RedditProvider.transformPost p nowMs).comments ∧
    (RedditProvider.transformPost p nowMs).shares = p.num_comments :=
  ⟨rfl, rfl⟩

/-- C8: invoked strictly less than 15 minutes after the most recent
discovery, the gate defers with nextDiscoveryTime = last + 15 minutes;
at or after 15 minutes, or with no recorded discovery, the fetch proceeds. -/
theorem C8_discovery_gate (t nowMs : ℚ) :
    (nowMs < t + 15 * 60 * 1000 →
      DiscoverRoute.discoveryRateGate (some t) nowMs =
        .deferred (t + 15 * 60 * 1000)) ∧
    (t + 15 * 60 * 1000 ≤ nowMs →
      DiscoverRoute.discoveryRateGate (some t) nowMs = .proceed) ∧
    DiscoverRoute.discoveryRateGate none nowMs = .proceed := by
  refine ⟨fun h => ?_, fun h => ?_, rfl⟩
  · rw [DiscoverRoute.discoveryRateGate, if_pos]
    rw [DiscoverRoute.minutesSinceLast]
    rw [div_lt_iff₀ (by norm_num)]
    linarith
  · rw [DiscoverRoute.discoveryRateGate, if_neg]
    rw [DiscoverRoute.minutesSinceLast]
    rw [not_lt, le_div_iff₀ (by norm_num)]
    linarith

theorem C8_discovery_gate_witness :
    DiscoverRoute.discoveryRateGate (some 0) 1 = .deferred 900000 ∧
    DiscoverRoute.discoveryRateGate (some 0) 900000 = .proceed := by
  constructor
  · have h := (C8_discovery_gate 0 1).1 (by norm_num)
    rw [h]; norm_num
  · have h := (C8_discovery_gate 0 900000).2.1 (by norm_num)
    simpa using h

/-- C4: pointwise monotonicity of both engagement scorers in the
engagement counters.  Two posts identical except that one counter is
larger (in particular, exactly one counter strictly larger) compare with
greater-or-equal score.  For the Twitter scorer the six counters of
public_metrics may each grow; for the Reddit scorer the counters feeding
likes/shares/comments (score and num_comments) may grow while the
non-counter fields (upvote ratio, creation time) stay fixed. -/
theorem C4_score_monotone :
    (∀ m m2 : TrendingAnalysisService.PublicMetrics,
      m.like_count ≤ m2.like_count → m.retweet_count ≤ m2.retweet_count →
      m.reply_count ≤ m2.reply_count → m.quote_count ≤ m2.quote_count →
      m.bookmark_count ≤ m2.bookmark_count →
      m.impression_count ≤ m2.impression_count →
      TrendingAnalysisService.calculateEngagementScore m ≤
        TrendingAnalysisService.calculateEngagementScore m2) ∧
    (∀ (p p2 : RedditProvider.RedditPost) (nowMs : ℚ),
      p.score ≤ p2.score → p.num_comments ≤ p2.num_comments →
      p.upvote_frac = p2.upvote_frac → 0 ≤ p.upvote_frac →
      p.created_utc = p2.created_utc →
      RedditProvider.calculateEngagementScore p nowMs ≤
        RedditProvider.calculateEngagementScore p2 nowMs) := by
  constructor
  · intro m m2 h1 h2 h3 h4 h5 h6
    apply jsRound_mono
    have c1 : (m.like_count : ℚ) ≤ m2.like_count := by exact_mod_cast h1
    have c2 : (m.retweet_count : ℚ) ≤ m2.retweet_count := by exact_mod_cast h2
    have c3 : (m.reply_count : ℚ) ≤ m2.reply_count := by exact_mod_cast h3
    have c4 : (m.quote_count : ℚ) ≤ m2.quote_count := by exact_mod_cast h4
    have c5 : (m.bookmark_count : ℚ) ≤ m2.bookmark_count := by exact_mod_cast h5
    have c6 : (m.impression_count : ℚ) ≤ m2.impression_count := by exact_mod_cast h6
    linarith
  · intro p p2 nowMs hs hc hr hr0 hcr
    simp only [RedditProvider.calculateEngagementScore]
    rw [← hr, ← hcr]
    apply jsRound_mono
    have cs : (p.score : ℚ) ≤ (p2.score : ℚ) := by exact_mod_cast hs
    have cc : (p.num_comments : ℚ) ≤ (p2.num_comments : ℚ) := by exact_mod_cast hc
    have hre : (0 : ℚ) ≤ (if p.upvote_frac = 0 then 1 / 2 else p.upvote_frac) := by
      split_ifs with h0
      · norm_num
      · exact hr0
    have t1 : (p.score : ℚ) * (if p.upvote_frac = 0 then 1 / 2 else p.upvote_frac) ≤
        (p2.score : ℚ) * (if p.upvote_frac = 0 then 1 / 2 else p.upvote_frac) :=
      mul_le_mul_of_nonneg_right cs hre
    have t3 : (if (8 / 10 : ℚ) < p.upvote_frac then (p.score : ℚ) * (1 / 2) else 0) ≤
        (if (8 / 10 : ℚ) < p.upvote_frac then (p2.score : ℚ) * (1 / 2) else 0) := by
      split_ifs with h8
      · linarith
      · norm_num
    linarith

theorem C4_score_monotone_witness :
    TrendingAnalysisService.calculateEngagementScore
        { like_count := 10, retweet_count := 0, reply_count := 0, quote_count := 0,
          bookmark_count := 0, impression_count := 1000 } ≤
      TrendingAnalysisService.calculateEngagementScore
        { like_count := 10, retweet_count := 5, reply_count := 0, quote_count := 0,
          bookmark_count := 0, impression_count := 1000 } ∧
    RedditProvider.calculateEngagementScore viralPostA 0 ≤
      RedditProvider.calculateEngagementScore viralPostBig 0 := by
  constructor
  · exact C4_score_monotone.1 _ _ (by norm_num) (by norm_num) (by norm_num)
      (by norm_num) (by norm_num) (by norm_num)
  · exact C4_score_monotone.2 viralPostA viralPostBig 0
      (by norm_num [viralPostA, viralPostBig]) (by norm_num [viralPostA, viralPostBig])
      (by norm_num [viralPostA, viralPostBig]) (by norm_num [viralPostA])
      (by norm_num [viralPostA, viralPostBig])

/-- C3, as stated, fails on the code: the engagement score of a normalized
Reddit post is not any weighted sum of its five engagement counters plus
any function of the elapsed time since publication, because the upvote
ratio enters multiplicatively.  viralPostA and viralPostB normalize to
identical counters and timestamps yet score 170 versus 100. -/
theorem C3_counterexample :
    ¬ ∃ (w1 w2 w3 w4 w5 : ℚ) (rb : ℚ → ℚ),
      ∀ (p : RedditProvider.RedditPost) (nowMs : ℚ),
        ((RedditProvider.transformPost p nowMs).engagement_score : ℚ) =
          w1 * ((RedditProvider.transformPost p nowMs).likes : ℚ) +
          w2 * ((RedditProvider.transformPost p nowMs).shares : ℚ) +
          w3 * ((RedditProvider.transformPost p nowMs).comments : ℚ) +
          w4 * 0 + w5 * ((RedditProvider.transformPost p nowMs).views : ℚ) +
          rb (nowMs - (RedditProvider.transformPost p nowMs).published_at) := by
  rintro ⟨w1, w2, w3, w4, w5, rb, h⟩
  have hA := h viralPostA 360000000
  have hB := h viralPostB 360000000
  norm_num [RedditProvider.transformPost, viralPostA, viralPostB,
    RedditProvider.calculateEngagementScore, RedditProvider.calculateRecencyBonus,
    jsRound] at hA hB
  linarith

/-- C3 amended: the Twitter scorer is the pure weighted sum
1·likes + 3·retweets + 4·replies + 3·quotes + 2·bookmarks + views/1000,
rounded, with no recency term (it reads nothing but public_metrics); the
Reddit scorer decomposes as a time-independent base (with the upvote ratio
entering multiplicatively, not as a fixed weight) plus a recency bonus
that is a step function of elapsed time since publication: non-increasing,
100 within 2 hours, and 0 beyond 12 hours. -/
theorem C3_amended_scoring :
    (∀ m : TrendingAnalysisService.PublicMetrics,
      TrendingAnalysisService.calculateEngagementScore m =
        jsRound ((m.like_count : ℚ) + 3 * (m.retweet_count : ℚ) +
          4 * (m.reply_count : ℚ) + 3 * (m.quote_count : ℚ) +
          2 * (m.bookmark_count : ℚ) + (m.impression_count : ℚ) / 1000)) ∧
    (∀ (p : RedditProvider.RedditPost) (nowMs : ℚ),
      RedditProvider.calculateEngagementScore p nowMs =
        jsRound (redditBaseScore p +
          RedditProvider.calculateRecencyBonus nowMs p.created_utc)) ∧
    (∀ (nowMs nowMs2 c : ℚ), nowMs ≤ nowMs2 →
      RedditProvider.calculateRecencyBonus nowMs2 c ≤
        RedditProvider.calculateRecencyBonus nowMs c) ∧
    (∀ (nowMs c : ℚ), (nowMs / 1000 - c) / 3600 ≤ 2 →
      RedditProvider.calculateRecencyBonus nowMs c = 100) ∧
    (∀ (nowMs c : ℚ), 12 < (nowMs / 1000 - c) / 3600 →
      RedditProvider.calculateRecencyBonus nowMs c = 0) := by
  refine ⟨fun m => ?_, fun p nowMs => ?_, fun nowMs nowMs2 c hle => ?_,
    fun nowMs c hc => ?_, fun nowMs c hc => ?_⟩
  · simp only [TrendingAnalysisService.calculateEngagementScore]
    congr 1
    ring
  · simp only [RedditProvider.calculateEngagementScore, redditBaseScore]
  · have hdiv : (nowMs / 1000 - c) / 3600 ≤ (nowMs2 / 1000 - c) / 3600 := by
      gcongr
    simp only [RedditProvider.calculateRecencyBonus]
    split_ifs <;> linarith
  · simp only [RedditProvider.calculateRecencyBonus]
    rw [if_pos hc]
  · simp only [RedditProvider.calculateRecencyBonus]
    rw [if_neg (by linarith), if_neg (by linarith), if_neg (by linarith)]

theorem C3_amended_scoring_witness :
    RedditProvider.calculateRecencyBonus 43200000000 0 ≤
      RedditProvider.calculateRecencyBonus 0 0 ∧
    RedditProvider.calculateRecencyBonus 0 0 = 100 ∧
    RedditProvider.calculateRecencyBonus 43200000000 0 = 0 :=
  ⟨C3_amended_scoring.2.2.1 0 43200000000 0 (by norm_num),
   C3_amended_scoring.2.2.2.1 0 0 (by norm_num),
   C3_amended_scoring.2.2.2.2 43200000000 0 (by norm_num)⟩

theorem removeDupAux_sublist (seen : List String)
    (posts : List RedditProvider.TrendingPost) :
    (RedditProvider.removeDupAux seen posts).Sublist posts := by
  induction posts generalizing seen with
  | nil => simp [RedditProvider.removeDupAux]
  | cons p rest ih =>
    simp only [RedditProvider.removeDupAux]
    split_ifs with h
    · exact (ih seen).cons p
    · exact (ih _).cons₂ p

theorem removeDupAux_nodup (seen : List String)
    (posts : List RedditProvider.TrendingPost) :
    ((RedditProvider.removeDupAux seen posts).map
      (fun p => p.platform_post_id)).Nodup ∧
    ∀ q ∈ RedditProvider.removeDupAux seen posts, q.platform_post_id ∉ seen := by
  induction posts generalizing seen with
  | nil => simp [RedditProvider.removeDupAux]
  | cons p rest ih =>
    simp only [RedditProvider.removeDupAux]
    split_ifs with h
    · exact ih seen
    · obtain ⟨ihn, ihs⟩ := ih (p.platform_post_id :: seen)
      constructor
      · simp only [List.map_cons, List.nodup_cons]
        refine ⟨fun hmem => ?_, ihn⟩
        obtain ⟨q, hq, hqe⟩ := List.mem_map.mp hmem
        exact (ihs q hq) (by simp [hqe])
      · intro q hq
        rcases List.mem_cons.mp hq with rfl | hq2
        · exact h
        · intro hqs
          exact (ihs q hq2) (List.mem_cons_of_mem _ hqs)

theorem removeDupAux_covers (seen : List String)
    (posts : List RedditProvider.TrendingPost) :
    ∀ p ∈ posts, p.platform_post_id ∈ seen ∨
      ∃ q ∈ RedditProvider.removeDupAux seen posts,
        q.platform_post_id = p.platform_post_id := by
  induction posts generalizing seen with
  | nil => simp
  | cons x rest ih =>
    intro p hp
    simp only [RedditProvider.removeDupAux]
    split_ifs with h
    · rcases List.mem_cons.mp hp with rfl | hp2
      · exact Or.inl h
      · exact ih seen p hp2
    · rcases List.mem_cons.mp hp with rfl | hp2
      · exact Or.inr ⟨p, List.mem_cons_self _ _, rfl⟩
      · rcases ih (x.platform_post_id :: seen) p hp2 with hmem | ⟨q, hq, hqe⟩
        · rcases List.mem_cons.mp hmem with heq | hseen
          · exact Or.inr ⟨x, List.mem_cons_self _ _, heq.symm⟩
          · exact Or.inl hseen
        · exact Or.inr ⟨q, List.mem_cons_of_mem _ hq, hqe⟩

/-- C6, as stated, fails on the code: deduplication keys on
platform_post_id alone, not on the composite (source, source_post_id), so
of two posts from different platforms sharing a platform_post_id only the
first survives. -/
theorem C6_counterexample :
    RedditProvider.removeDuplicatePosts [dupPostTwitter, dupPostReddit] =
      [dupPostTwitter] ∧
    dupPostTwitter.platform ≠ dupPostReddit.platform ∧
    dupPostTwitter.platform_post_id = dupPostReddit.platform_post_id := by
  refine ⟨?_, by decide, rfl⟩
  simp [RedditProvider.removeDuplicatePosts, RedditProvider.removeDupAux,
    dupPostTwitter, dupPostReddit]

/-- C6 amended: deduplication removes a post exactly when a post with the
same platform_post_id (regardless of platform) was already seen in the
run, and identity is never derived from content text: the output is a
sublist of the input whose platform_post_id values are pairwise distinct,
and every input platform_post_id is still represented. -/
theorem C6_amended_dedup (posts : List RedditProvider.TrendingPost) :
    (RedditProvider.removeDuplicatePosts posts).Sublist posts ∧
    ((RedditProvider.removeDuplicatePosts posts).map
      (fun p => p.platform_post_id)).Nodup ∧
    ∀ p ∈ posts, ∃ q ∈ RedditProvider.removeDuplicatePosts posts,
      q.platform_post_id = p.platform_post_id := by
  refine ⟨removeDupAux_sublist [] posts, (removeDupAux_nodup [] posts).1, ?_⟩
  intro p hp
  rcases removeDupAux_covers [] posts p hp with hmem | h
  · simp at hmem
  · exact h

theorem C6_amended_dedup_witness :
    ∃ q ∈ RedditProvider.removeDuplicatePosts [dupPostTwitter, dupPostReddit],
      q.platform_post_id = dupPostReddit.platform_post_id :=
  (C6_amended_dedup [dupPostTwitter, dupPostReddit]).2.2 dupPostReddit (by simp)

theorem sentimentCounts_le (posts : List TrendingAnalysisService.DbPost) :
    (posts.filter (fun p => p.sentiment = some "positive")).length +
    (posts.filter (fun p => p.sentiment = some "negative")).length +
    (posts.filter (fun p => p.sentiment = some "neutral")).length ≤
      posts.length := by
  induction posts with
  | nil => simp
  | cons p rest ih =>
    by_cases h1 : p.sentiment = some "positive" <;>
      by_cases h2 : p.sentiment = some "negative" <;>
      by_cases h3 : p.sentiment = some "neutral" <;>
      simp_all [List.filter_cons] <;> omega

theorem sentimentCounts_eq (posts : List TrendingAnalysisService.DbPost)
    (hall : ∀ p ∈ posts, p.sentiment = some "positive" ∨
      p.sentiment = some "negative" ∨ p.sentiment = some "neutral") :
    (posts.filter (fun p => p.sentiment = some "positive")).length +
    (posts.filter (fun p => p.sentiment = some "negative")).length +
    (posts.filter (fun p => p.sentiment = some "neutral")).length =
      posts.length := by
  induction posts with
  | nil => simp
  | cons p rest ih =>
    have hp := hall p (List.mem_cons_self _ _)
    have hrest := fun q hq => hall q (List.mem_cons_of_mem _ hq)
    have ihr := ih hrest
    rcases hp with h1 | h2 | h3 <;>
      by_cases g1 : p.sentiment = some "positive" <;>
      by_cases g2 : p.sentiment = some "negative" <;>
      by_cases g3 : p.sentiment = some "neutral" <;>
      simp_all [List.filter_cons] <;> omega

/-- C9, as stated, fails on the code: a non-empty group containing a post
with no sentiment label yields a distribution whose components sum to 0,
not 1, because unlabeled posts count toward the denominator only. -/
theorem C9_counterexample :
    ([unlabeledPost] : List TrendingAnalysisService.DbPost) ≠ [] ∧
    (TrendingAnalysisService.calculateSentimentDistribution [unlabeledPost]).1 +
    (TrendingAnalysisService.calculateSentimentDistribution [unlabeledPost]).2.1 +
    (TrendingAnalysisService.calculateSentimentDistribution [unlabeledPost]).2.2 ≠
      1 := by
  constructor
  · simp
  · simp only [TrendingAnalysisService.calculateSentimentDistribution, unlabeledPost]
    simp [List.filter_cons]

/-- C9 amended: for every non-empty group the sentiment distribution is a
3-way vector with components in [0,1] summing to at most 1, and the sum is
exactly 1 when every post of the group carries one of the three sentiment
labels. -/
theorem C9_amended_distribution (posts : List TrendingAnalysisService.DbPost)
    (hne : posts ≠ []) :
    (0 ≤ (TrendingAnalysisService.calculateSentimentDistribution posts).1 ∧
      (TrendingAnalysisService.calculateSentimentDistribution posts).1 ≤ 1) ∧
    (0 ≤ (TrendingAnalysisService.calculateSentimentDistribution posts).2.1 ∧
      (TrendingAnalysisService.calculateSentimentDistribution posts).2.1 ≤ 1) ∧
    (0 ≤ (TrendingAnalysisService.calculateSentimentDistribution posts).2.2 ∧
      (TrendingAnalysisService.calculateSentimentDistribution posts).2.2 ≤ 1) ∧
    (TrendingAnalysisService.calculateSentimentDistribution posts).1 +
      (TrendingAnalysisService.calculateSentimentDistribution posts).2.1 +
      (TrendingAnalysisService.calculateSentimentDistribution posts).2.2 ≤ 1 ∧
    ((∀ p ∈ posts, p.sentiment = some "positive" ∨
        p.sentiment = some "negative" ∨ p.sentiment = some "neutral") →
      (TrendingAnalysisService.calculateSentimentDistribution posts).1 +
        (TrendingAnalysisService.calculateSentimentDistribution posts).2.1 +
        (TrendingAnalysisService.calculateSentimentDistribution posts).2.2 = 1) := by
  have htot : 0 < posts.length := List.length_pos.mpr hne
  have htotQ : (0 : ℚ) < (posts.length : ℚ) := by exact_mod_cast htot
  simp only [TrendingAnalysisService.calculateSentimentDistribution, if_pos htot]
  have hposle : ((posts.filter (fun p => p.sentiment = some "positive")).length : ℚ) ≤
      (posts.length : ℚ) := by
    exact_mod_cast (List.length_filter_le _ _)
  have hnegle : ((posts.filter (fun p => p.sentiment = some "negative")).length : ℚ) ≤
      (posts.length : ℚ) := by
    exact_mod_cast (List.length_filter_le _ _)
  have hneule : ((posts.filter (fun p => p.sentiment = some "neutral")).length : ℚ) ≤
      (posts.length : ℚ) := by
    exact_mod_cast (List.length_filter_le _ _)
  refine ⟨⟨by positivity, ?_⟩, ⟨by positivity, ?_⟩, ⟨by positivity, ?_⟩, ?_, fun hall => ?_⟩
  · rw [div_le_one htotQ]; exact hposle
  · rw [div_le_one htotQ]; exact hnegle
  · rw [div_le_one htotQ]; exact hneule
  · rw [div_add_div_same, div_add_div_same, div_le_one htotQ]
    exact_mod_cast sentimentCounts_le posts
  · rw [div_add_div_same, div_add_div_same]
    rw [show (((posts.filter (fun p => p.sentiment = some "positive")).length : ℚ) +
        ((posts.filter (fun p => p.sentiment = some "negative")).length : ℚ) +
        ((posts.filter (fun p => p.sentiment = some "neutral")).length : ℚ)) =
        ((posts.length : ℚ)) from by exact_mod_cast sentimentCounts_eq posts hall]
    exact div_self (ne_of_gt htotQ)

theorem C9_amended_distribution_witness :
    (TrendingAnalysisService.calculateSentimentDistribution [labeledPost]).1 +
    (TrendingAnalysisService.calculateSentimentDistribution [labeledPost]).2.1 +
    (TrendingAnalysisService.calculateSentimentDistribution [labeledPost]).2.2 = 1 :=
  (C9_amended_distribution [labeledPost] (by simp)).2.2.2.2
    (by
      intro p hp
      simp only [List.mem_singleton] at hp
      subst hp
      exact Or.inl rfl)

theorem addToGroup_ne_nil (gs : List (String × List TrendingAnalysisService.DbPost))
    (key : String) (p : TrendingAnalysisService.DbPost) :
    TrendingAnalysisService.addToGroup gs key p ≠ [] := by
  cases gs with
  | nil => simp [TrendingAnalysisService.addToGroup]
  | cons g rest =>
    obtain ⟨k, ps⟩ := g
    simp only [TrendingAnalysisService.addToGroup]
    split_ifs <;> simp

theorem foldl_addToGroup_ne_nil (posts : List TrendingAnalysisService.DbPost)
    (gs : List (String × List TrendingAnalysisService.DbPost)) (h : gs ≠ []) :
    posts.foldl
      (fun gs p => TrendingAnalysisService.addToGroup gs
        (TrendingAnalysisService.assignKey p) p) gs ≠ [] := by
  induction posts generalizing gs with
  | nil => exact h
  | cons p rest ih =>
    simp only [List.foldl_cons]
    exact ih _ (addToGroup_ne_nil gs _ p)

theorem rawGroups_ne_nil (posts : List TrendingAnalysisService.DbPost)
    (h : posts ≠ []) : TrendingAnalysisService.rawGroups posts ≠ [] := by
  cases posts with
  | nil => exact absurd rfl h
  | cons p rest =>
    simp only [TrendingAnalysisService.rawGroups, List.foldl_cons]
    exact foldl_addToGroup_ne_nil rest _ (addToGroup_ne_nil [] _ p)

/-- C5: on a non-empty input the clusterer keeps exactly the groups with
at least 2 members, unless no group reaches that size, in which case it
keeps the largest groups (the 5 largest); consequently the output always
contains at least one group.  Each returned group either has at least 2
members or comes from the fallback, in which case every assembled group
was below the threshold. -/
theorem C5_cluster_fallback (posts : List TrendingAnalysisService.DbPost)
    (hne : posts ≠ []) :
    TrendingAnalysisService.groupPostsByTrends posts ≠ [] ∧
    ∀ g ∈ TrendingAnalysisService.groupPostsByTrends posts,
      2 ≤ g.2.length ∨
        ∀ g2 ∈ TrendingAnalysisService.rawGroups posts, g2.2.length < 2 := by
  have hraw := rawGroups_ne_nil posts hne
  simp only [TrendingAnalysisService.groupPostsByTrends]
  by_cases hf :
      (TrendingAnalysisService.rawGroups posts).filter (fun g => 2 ≤ g.2.length) = []
  · rw [hf]
    simp only [List.isEmpty_nil, if_true]
    constructor
    · apply List.ne_nil_of_length_pos
      rw [List.length_take, List.length_mergeSort]
      have : 0 < (TrendingAnalysisService.rawGroups posts).length :=
        List.length_pos.mpr hraw
      omega
    · intro g _
      refine Or.inr fun g2 hg2 => ?_
      have := List.filter_eq_nil_iff.mp hf g2 hg2
      simpa using this
  · rw [if_neg (by simpa [List.isEmpty_iff] using hf)]
    refine ⟨hf, fun g hg => Or.inl ?_⟩
    have := (List.mem_filter.mp hg).2
    simpa using this

theorem C5_cluster_fallback_witness :
    ([unlabeledPost] : List TrendingAnalysisService.DbPost) ≠ [] ∧
    TrendingAnalysisService.groupPostsByTrends [unlabeledPost] ≠ [] :=
  ⟨by simp, (C5_cluster_fallback [unlabeledPost] (by simp)).1⟩

theorem transformRedditData_length_le (children : List RedditProvider.RedditPost)
    (nowMs : ℚ) :
    (RedditProvider.transformRedditData children nowMs).length ≤ children.length := by
  simp only [RedditProvider.transformRedditData, List.length_map]
  exact List.length_filter_le _ _

theorem fetchPagesGo_length (nowMs : ℚ) (pages : ℕ)
    (resps : List RedditProvider.PageResponse) :
    ∀ (page : ℕ) (acc : List RedditProvider.TrendingPost) (cursor : Option String),
      (∀ children cur, RedditProvider.PageResponse.ok children cur ∈ resps →
        children.length ≤ 100) →
      acc.length ≤ 100 * page → page ≤ pages →
      ((RedditProvider.fetchPagesGo nowMs pages resps page acc cursor).1.posts).length ≤
        100 * pages := by
  induction resps with
  | nil =>
    intro page acc cursor _hok hacc hpp
    simp only [RedditProvider.fetchPagesGo]
    split_ifs with hpage <;> simp only [RedditProvider.FetchResult.posts] <;> omega
  | cons r rest ih =>
    intro page acc cursor hok hacc hpp
    have hokr : ∀ children cur, RedditProvider.PageResponse.ok children cur ∈ rest →
        children.length ≤ 100 :=
      fun ch cu hm => hok ch cu (List.mem_cons_of_mem _ hm)
    cases r with
    | http429 =>
      simp only [RedditProvider.fetchPagesGo]
      split_ifs with hpage
      · simp only [RedditProvider.FetchResult.posts]; omega
      · exact ih page acc cursor hokr hacc hpp
    | httpError =>
      simp only [RedditProvider.fetchPagesGo]
      split_ifs with hpage <;> simp only [RedditProvider.FetchResult.posts] <;> omega
    | ok children cur =>
      have hch : children.length ≤ 100 :=
        hok children cur (List.mem_cons_self _ _)
      have htr := transformRedditData_length_le children nowMs
      simp only [RedditProvider.fetchPagesGo]
      split_ifs with hpage hzero
      · simp only [RedditProvider.FetchResult.posts]; omega
      · simp only [RedditProvider.FetchResult.posts]; omega
      · have hacc2 :
            (acc ++ RedditProvider.transformRedditData children nowMs).length ≤
              100 * (page + 1) := by
          rw [List.length_append]; omega
        cases cur with
        | none =>
          simp only [RedditProvider.FetchResult.posts, List.length_append]
          omega
        | some a =>
          simp only []
          split_ifs with hblank
          · simp only [RedditProvider.FetchResult.posts, List.length_append]
            omega
          · exact ih (page + 1) _ (some a) hokr hacc2 (by omega)

theorem fetchMaxViralPosts_posts_length (maxItems : ℕ) (nowMs : ℚ)
    (resps : List RedditProvider.PageResponse) :
    ((RedditProvider.fetchMaxViralPosts maxItems nowMs resps).1.posts).length =
      ((RedditProvider.fetchPagesGo nowMs (RedditProvider.pagesNeeded maxItems)
        resps 0 [] none).1.posts).length := by
  simp only [RedditProvider.fetchMaxViralPosts]
  cases hres : (RedditProvider.fetchPagesGo nowMs (RedditProvider.pagesNeeded maxItems)
      resps 0 [] none).1 with
  | done ps =>
    simp [RedditProvider.FetchResult.posts, RedditProvider.sortByEngagement,
      List.length_mergeSort]
  | outOfResponses ps pg cu =>
    simp [RedditProvider.FetchResult.posts]

/-- C7, as stated, fails on the code: fetchMaxViralPosts never truncates
its result to maxItems.  With maxItems = 150 it fetches
ceil(150/100) = 2 pages of up to 100 items and returns all of them: on a
trace of two full pages the caller receives 200 items, 50 beyond the
configured ceiling. -/
theorem C7_counterexample :
    150 < ((RedditProvider.fetchMaxViralPosts 150 0 overshootTrace).1.posts).length := by
  have hval : RedditProvider.isValidPost viralPostA = true := by
    rw [RedditProvider.isValidPost]
    norm_num [viralPostA]
    decide
  have htrans :
      (RedditProvider.transformRedditData (List.replicate 100 viralPostA) 0).length =
        100 := by
    simp [RedditProvider.transformRedditData, List.filter_replicate, hval]
  rw [fetchMaxViralPosts_posts_length]
  have hpn : RedditProvider.pagesNeeded 150 = 2 := by decide
  rw [hpn]
  simp only [overshootTrace, RedditProvider.fetchPagesGo]
  rw [if_neg (by decide : ¬("t2" = ""))]
  show 150 < (RedditProvider.transformRedditData (List.replicate 100 viralPostA) 0 ++
    RedditProvider.transformRedditData (List.replicate 100 viralPostA) 0).length
  rw [List.length_append, htrans]
  omega

/-- C7 amended: the fetcher bounds its output by whole pages, not by
maxItems: at most 100 * ceil(min(maxItems,1000)/100) items are returned
(whenever each page carries at most the requested 100 items), which
exceeds the configured ceiling by up to 99; items beyond that page bound
are never returned. -/
theorem C7_amended_item_ceiling (maxItems : ℕ) (nowMs : ℚ)
    (resps : List RedditProvider.PageResponse)
    (hok : ∀ children cursor,
      RedditProvider.PageResponse.ok children cursor ∈ resps →
        children.length ≤ 100) :
    ((RedditProvider.fetchMaxViralPosts maxItems nowMs resps).1.posts).length ≤
      100 * RedditProvider.pagesNeeded maxItems ∧
    100 * RedditProvider.pagesNeeded maxItems ≤ min maxItems 1000 + 99 := by
  constructor
  · rw [fetchMaxViralPosts_posts_length]
    exact fetchPagesGo_length nowMs (RedditProvider.pagesNeeded maxItems) resps 0 []
      none hok (by simp) (by omega)
  · simp only [RedditProvider.pagesNeeded, RedditProvider.MAX_ITEMS_PER_SUBREDDIT,
      RedditProvider.ITEMS_PER_REQUEST]
    omega

theorem C7_amended_item_ceiling_witness :
    ((RedditProvider.fetchMaxViralPosts 1000 0 []).1.posts).length ≤
      100 * RedditProvider.pagesNeeded 1000 :=
  (C7_amended_item_ceiling 1000 0 [] (by intro ch cu h; simp at h)).1

theorem backoffTime_le (page : ℕ) : RedditProvider.backoffTime page ≤ 30000 :=
  min_le_right _ _

theorem backoffTime_mono {p q : ℕ} (h : p ≤ q) :
    RedditProvider.backoffTime p ≤ RedditProvider.backoffTime q := by
  have h2 : (2 : ℕ) ^ p ≤ 2 ^ q := Nat.pow_le_pow_right (by norm_num) h
  exact min_le_min (by omega) (le_refl 30000)

theorem fetchPagesGo_log (nowMs : ℚ) (pages : ℕ)
    (resps : List RedditProvider.PageResponse) :
    ∀ (page : ℕ) (acc : List RedditProvider.TrendingPost) (cursor : Option String),
      (∀ d ∈ (RedditProvider.fetchPagesGo nowMs pages resps page acc cursor).2,
        RedditProvider.backoffTime page ≤ d ∧ d ≤ 30000) ∧
      List.Chain' (· ≤ ·)
        (RedditProvider.fetchPagesGo nowMs pages resps page acc cursor).2 := by
  induction resps with
  | nil =>
    intro page acc cursor
    constructor
    · intro d hd
      simp only [RedditProvider.fetchPagesGo] at hd
      split_ifs at hd <;> simp at hd
    · simp only [RedditProvider.fetchPagesGo]
      split_ifs <;> simp
  | cons r rest ih =>
    intro page acc cursor
    cases r with
    | http429 =>
      obtain ⟨ihb, ihc⟩ := ih page acc cursor
      constructor
      · intro d hd
        simp only [RedditProvider.fetchPagesGo] at hd
        split_ifs at hd
        · simp at hd
        · rcases List.mem_cons.mp hd with rfl | hd2
          · exact ⟨le_refl _, backoffTime_le page⟩
          · exact ihb d hd2
      · simp only [RedditProvider.fetchPagesGo]
        split_ifs with hpage
        · simp
        · rw [List.chain'_cons']
          exact ⟨fun y hy => (ihb y (List.mem_of_mem_head? hy)).1, ihc⟩
    | httpError =>
      constructor
      · intro d hd
        simp only [RedditProvider.fetchPagesGo] at hd
        split_ifs at hd <;> simp at hd
      · simp only [RedditProvider.fetchPagesGo]
        split_ifs <;> simp
    | ok children cur =>
      obtain ⟨ihb, ihc⟩ :=
        ih (page + 1) (acc ++ RedditProvider.transformRedditData children nowMs)
          (match cur with | some a => some a | none => none)
      constructor
      · intro d hd
        simp only [RedditProvider.fetchPagesGo] at hd
        split_ifs at hd
        · simp at hd
        · simp at hd
        · cases cur with
          | none => simp at hd
          | some a =>
            simp only [] at hd
            split_ifs at hd with hblank
            · simp at hd
            · obtain ⟨ihb2, _⟩ :=
                ih (page + 1)
                  (acc ++ RedditProvider.transformRedditData children nowMs) (some a)
              have h2 := ihb2 d hd
              exact ⟨le_trans (backoffTime_mono (Nat.le_succ page)) h2.1, h2.2⟩
      · simp only [RedditProvider.fetchPagesGo]
        split_ifs with hpage hzero
        · simp
        · simp
        · cases cur with
          | none => simp
          | some a =>
            simp only []
            split_ifs with hblank
            · simp
            · obtain ⟨_, ihc2⟩ :=
                ih (page + 1)
                  (acc ++ RedditProvider.transformRedditData children nowMs) (some a)
              exact ihc2

theorem fetchPagesGo_allFail (nowMs : ℚ) (pages : ℕ) :
    ∀ (n page : ℕ) (acc : List RedditProvider.TrendingPost) (cursor : Option String),
      page < pages →
      RedditProvider.fetchPagesGo nowMs pages
          (List.replicate n RedditProvider.PageResponse.http429) page acc cursor =
        (RedditProvider.FetchResult.outOfResponses acc page cursor,
         List.replicate n (RedditProvider.backoffTime page)) := by
  intro n
  induction n with
  | zero =>
    intro page acc cursor hp
    simp only [List.replicate, RedditProvider.fetchPagesGo]
    rw [if_neg (not_le.mpr hp)]
  | succ n ihn =>
    intro page acc cursor hp
    rw [List.replicate_succ]
    simp only [RedditProvider.fetchPagesGo]
    rw [if_neg (not_le.mpr hp), ihn page acc cursor hp]
    simp [List.replicate_succ]

/-- C1, as stated, fails on the code: there is no bounded retry count.
On HTTP 429 the loop decrements and re-increments the page counter and
retries, so a page that always answers 429 is retried forever: no number
of consecutive 429 responses makes fetchMaxViralPosts finish (abandon and
return partial results); it is still mid-loop after every such trace. -/
theorem C1_counterexample :
    ¬ ∃ B : ℕ, ((RedditProvider.fetchMaxViralPosts 1000 0
      (List.replicate (B + 1) RedditProvider.PageResponse.http429)).1.isDone) = true := by
  rintro ⟨B, hB⟩
  have h0 : 0 < RedditProvider.pagesNeeded 1000 := by decide
  have h := fetchPagesGo_allFail 0 (RedditProvider.pagesNeeded 1000) (B + 1) 0 [] none h0
  simp only [RedditProvider.fetchMaxViralPosts, h] at hB
  simp [RedditProvider.FetchResult.isDone] at hB

/-- C1 amended: every backoff sleep is capped at 30000 ms and the sleep
log of any run is non-decreasing; but the backoff for retries of one page
is the constant min(1000·2^page, 30000) (it grows with the page index,
not with the retry count), and retries are unbounded: a trace of n
consecutive 429 responses leaves the fetcher still fetching the same page
with the same cursor and accumulated posts after n equal backoffs — it
abandons the source only on non-429 errors, never after a bounded number
of 429 retries. -/
theorem C1_amended_backoff (maxItems : ℕ) (nowMs : ℚ) :
    (∀ (resps : List RedditProvider.PageResponse) (page : ℕ)
        (acc : List RedditProvider.TrendingPost) (cursor : Option String),
      (∀ d ∈ (RedditProvider.fetchPagesGo nowMs (RedditProvider.pagesNeeded maxItems)
          resps page acc cursor).2, d ≤ 30000) ∧
      List.Chain' (· ≤ ·) (RedditProvider.fetchPagesGo nowMs
        (RedditProvider.pagesNeeded maxItems) resps page acc cursor).2) ∧
    (∀ (n page : ℕ) (acc : List RedditProvider.TrendingPost) (cursor : Option String),
      page < RedditProvider.pagesNeeded maxItems →
      RedditProvider.fetchPagesGo nowMs (RedditProvider.pagesNeeded maxItems)
          (List.replicate n RedditProvider.PageResponse.http429) page acc cursor =
        (RedditProvider.FetchResult.outOfResponses acc page cursor,
         List.replicate n (RedditProvider.backoffTime page))) := by
  constructor
  · intro resps page acc cursor
    obtain ⟨hb, hc⟩ :=
      fetchPagesGo_log nowMs (RedditProvider.pagesNeeded maxItems) resps page acc cursor
    exact ⟨fun d hd => (hb d hd).2, hc⟩
  · intro n page acc cursor hp
    exact fetchPagesGo_allFail nowMs (RedditProvider.pagesNeeded maxItems) n page acc cursor hp

theorem C1_amended_backoff_witness :
    RedditProvider.fetchPagesGo 0 (RedditProvider.pagesNeeded 1000)
        (List.replicate 2 RedditProvider.PageResponse.http429) 0 [] none =
      (RedditProvider.FetchResult.outOfResponses [] 0 none,
       List.replicate 2 (RedditProvider.backoffTime 0)) :=
  (C1_amended_backoff 1000 0).2 2 0 [] none (by decide)

theorem windowCount_append_single (l : List ℕ) (w t x : ℕ) :
    RedditProvider.windowCount (l ++ [x]) w t =
      RedditProvider.windowCount l w t +
        (if RedditProvider.inWindow w t x then 1 else 0) := by
  simp [RedditProvider.windowCount, List.countP_append, List.countP_cons]

theorem windowCount_mono_t (l : List ℕ) (w t1 t2 : ℕ) (hbd : ∀ x ∈ l, x ≤ t1)
    (ht : t1 ≤ t2) :
    RedditProvider.windowCount l w t2 ≤ RedditProvider.windowCount l w t1 := by
  apply List.countP_mono_left
  intro x hx hpx
  have hb := hbd x hx
  simp only [RedditProvider.inWindow, Bool.and_eq_true, decide_eq_true_eq] at hpx ⊢
  omega

theorem sorted_take_le (l : List ℕ) (hs : l.Sorted (· ≤ ·)) (k : ℕ)
    (hk : k < l.length) : ∀ x ∈ l.take (k + 1), x ≤ l.getD k 0 := by
  induction l generalizing k with
  | nil => simp at hk
  | cons a t ihl =>
    intro x hx
    cases k with
    | zero =>
      simp only [List.take_succ_cons, List.take_zero, List.mem_singleton] at hx
      subst hx
      simp [List.getD]
    | succ k2 =>
      have hk2 : k2 < t.length := by simpa using hk
      rw [List.take_succ_cons] at hx
      rcases List.mem_cons.mp hx with rfl | hx2
      · have hmem : t.getD k2 0 ∈ t := by
          rw [List.getD_eq_getElem _ 0 hk2]
          exact List.getElem_mem hk2
        have := (List.sorted_cons.mp hs).1 _ hmem
        simpa [List.getD_cons_succ] using this
      · have := ihl (List.sorted_cons.mp hs).2 k2 hk2 x hx2
        simpa [List.getD_cons_succ] using this

theorem sorted_countP_gt_le (l : List ℕ) (hs : l.Sorted (· ≤ ·)) (k : ℕ)
    (hk : k < l.length) (p : ℕ → Bool)
    (hp : ∀ x, x ≤ l.getD k 0 → p x = false) :
    l.countP p ≤ l.length - (k + 1) := by
  conv_lhs => rw [← List.take_append_drop (k + 1) l]
  rw [List.countP_append]
  have htake : (l.take (k + 1)).countP p = 0 := by
    rw [List.countP_eq_zero]
    intro a ha
    simp [hp a (sorted_take_le l hs k hk a ha)]
  rw [htake]
  have hdrop := List.countP_le_length (p := p) (l := l.drop (k + 1))
  simp only [List.length_drop] at hdrop
  omega

theorem cleanTimestamps_append (l1 l2 : List ℕ) (now : ℕ) :
    RedditProvider.cleanTimestamps (l1 ++ l2) now =
      RedditProvider.cleanTimestamps l1 now ++ RedditProvider.cleanTimestamps l2 now := by
  simp [RedditProvider.cleanTimestamps, List.filter_append]

theorem cleanTimestamps_clean (l : List ℕ) (n1 n2 : ℕ) (h : n1 ≤ n2)
    (hb : ∀ x ∈ l, x ≤ n1) :
    RedditProvider.cleanTimestamps (RedditProvider.cleanTimestamps l n1) n2 =
      RedditProvider.cleanTimestamps l n2 := by
  simp only [RedditProvider.cleanTimestamps, List.filter_filter]
  apply List.filter_congr
  intro x hx
  have hxb := hb x hx
  by_cases hc : n2 - x < 10 * 60 * 1000 <;>
    by_cases hd : n1 - x < 10 * 60 * 1000 <;>
    simp [hc, hd] <;>
    omega

theorem rateInvariant_step (s : RedditProvider.RateState) (hist : List ℕ)
    (now tp : ℕ) (hinv : rateInvariant s hist) (hnow : s.lastRequestTime ≤ now)
    (htp : now + RedditProvider.requiredWait s now ≤ tp) :
    rateInvariant (RedditProvider.checkRateLimit s now tp) (hist ++ [tp]) := by
  obtain ⟨hsort, hbound, hhbound, hcoh, hwin⟩ := hinv
  have hcl : RedditProvider.cleanTimestamps s.requestTimestamps now =
      RedditProvider.cleanTimestamps hist now := hcoh now hnow
  have hnowtp : now ≤ tp := le_trans (Nat.le_add_right _ _) htp
  have hclsort : (RedditProvider.cleanTimestamps s.requestTimestamps now).Sorted (· ≤ ·) :=
    hsort.filter _
  have hclmem_now : ∀ x ∈ RedditProvider.cleanTimestamps s.requestTimestamps now,
      x ≤ now :=
    fun x hx => le_trans (hbound x (List.mem_of_mem_filter hx)) hnow
  have hhist_now : ∀ x ∈ hist, x ≤ now := fun x hx => le_trans (hhbound x hx) hnow
  -- the count of history timestamps in a window ending at tp is computed on
  -- the cleaned state, for w ≤ 600000
  have hchop : ∀ w, w ≤ 600000 →
      RedditProvider.windowCount hist w tp =
        RedditProvider.windowCount
          (RedditProvider.cleanTimestamps s.requestTimestamps now) w tp := by
    intro w hw
    rw [hcl]
    simp only [RedditProvider.windowCount, RedditProvider.cleanTimestamps]
    rw [List.countP_filter]
    apply List.countP_congr
    intro x hx
    have hxn := hhist_now x hx
    simp only [RedditProvider.inWindow, Bool.and_eq_true, decide_eq_true_eq]
    constructor
    · intro hpx
      exact ⟨⟨hpx.1, hpx.2⟩, by omega⟩
    · intro hpx
      exact hpx.1
  -- the per-minute bound on the cleaned state at time tp
  have h60 : RedditProvider.windowCount
      (RedditProvider.cleanTimestamps s.requestTimestamps now) 60000 tp ≤ 99 := by
    by_cases h100 : RedditProvider.MAX_REQUESTS_PER_MINUTE ≤
        RedditProvider.recentCount (RedditProvider.cleanTimestamps s.requestTimestamps now) now
    · -- ceiling hit: the code sleeps until the 100th-from-last timestamp ages out
      have hrec_len : RedditProvider.recentCount
          (RedditProvider.cleanTimestamps s.requestTimestamps now) now ≤
          (RedditProvider.cleanTimestamps s.requestTimestamps now).length :=
        List.length_filter_le _ _
      have hlen : 100 ≤ (RedditProvider.cleanTimestamps s.requestTimestamps now).length := by
        have := h100
        simp only [RedditProvider.MAX_REQUESTS_PER_MINUTE] at this
        omega
      have hke : (RedditProvider.cleanTimestamps s.requestTimestamps now).length - 100 <
          (RedditProvider.cleanTimestamps s.requestTimestamps now).length := by omega
      have he_mem : (RedditProvider.cleanTimestamps s.requestTimestamps now).getD
          ((RedditProvider.cleanTimestamps s.requestTimestamps now).length - 100) 0 ∈
          RedditProvider.cleanTimestamps s.requestTimestamps now := by
        rw [List.getD_eq_getElem _ 0 hke]
        exact List.getElem_mem hke
      have he_now : (RedditProvider.cleanTimestamps s.requestTimestamps now).getD
          ((RedditProvider.cleanTimestamps s.requestTimestamps now).length - 100) 0 ≤ now :=
        hclmem_now _ he_mem
      have hwaited : 60000 ≤ tp -
          (RedditProvider.cleanTimestamps s.requestTimestamps now).getD
            ((RedditProvider.cleanTimestamps s.requestTimestamps now).length - 100) 0 := by
        have hmw : RedditProvider.minuteWait
            (RedditProvider.cleanTimestamps s.requestTimestamps now) now =
            60000 - (now - (RedditProvider.cleanTimestamps s.requestTimestamps now).getD
              ((RedditProvider.cleanTimestamps s.requestTimestamps now).length -
                RedditProvider.MAX_REQUESTS_PER_MINUTE) 0) := by
          rw [RedditProvider.minuteWait, if_pos h100]
        have hreq := htp
        rw [RedditProvider.requiredWait, hmw] at hreq
        simp only [RedditProvider.MAX_REQUESTS_PER_MINUTE] at hreq
        omega
      apply le_trans (sorted_countP_gt_le _ hclsort _ hke _ ?_) (by omega)
      intro x hx
      simp only [RedditProvider.inWindow, Bool.and_eq_true, decide_eq_true_eq]
      simp only [Bool.and_eq_false_iff, decide_eq_false_iff_not]
      right
      omega
    · -- ceiling not hit: at most 99 requests within the last minute
      have hmono : RedditProvider.windowCount
          (RedditProvider.cleanTimestamps s.requestTimestamps now) 60000 tp ≤
          RedditProvider.recentCount
            (RedditProvider.cleanTimestamps s.requestTimestamps now) now := by
        rw [show RedditProvider.recentCount
            (RedditProvider.cleanTimestamps s.requestTimestamps now) now =
            (RedditProvider.cleanTimestamps s.requestTimestamps now).countP
              (fun t => now - t < 60 * 1000) from by
          simp [RedditProvider.recentCount, List.countP_eq_length_filter]]
        apply List.countP_mono_left
        intro x hx hpx
        have hxn := hclmem_now x hx
        simp only [RedditProvider.inWindow, Bool.and_eq_true, decide_eq_true_eq] at hpx
        simp only [decide_eq_true_eq]
        omega
      simp only [RedditProvider.MAX_REQUESTS_PER_MINUTE, not_le] at h100
      omega
  -- the 10-minute bound on the cleaned state at time tp
  have h10 : RedditProvider.windowCount
      (RedditProvider.cleanTimestamps s.requestTimestamps now) 600000 tp ≤ 995 := by
    by_cases h996 : RedditProvider.MAX_REQUESTS_PER_10_MIN ≤
        (RedditProvider.cleanTimestamps s.requestTimestamps now).length
    · have hlenle : (RedditProvider.cleanTimestamps s.requestTimestamps now).length ≤
          RedditProvider.windowCount hist 600000 now := by
        rw [hcl]
        simp only [RedditProvider.windowCount, RedditProvider.cleanTimestamps]
        rw [show (List.filter (fun t => decide (now - t < 10 * 60 * 1000)) hist).length =
            hist.countP (fun t => decide (now - t < 10 * 60 * 1000)) from by
          simp [List.countP_eq_length_filter]]
        apply List.countP_mono_left
        intro x hx hpx
        have hxn := hhist_now x hx
        simp only [decide_eq_true_eq] at hpx
        simp only [RedditProvider.inWindow, Bool.and_eq_true, decide_eq_true_eq]
        omega
      have hlen96 : (RedditProvider.cleanTimestamps s.requestTimestamps now).length ≤ 996 :=
        le_trans hlenle (hwin now).2
      have hlenpos : 0 < (RedditProvider.cleanTimestamps s.requestTimestamps now).length := by
        simp only [RedditProvider.MAX_REQUESTS_PER_10_MIN] at h996
        omega
      have hke : 0 < (RedditProvider.cleanTimestamps s.requestTimestamps now).length :=
        hlenpos
      have he_mem : (RedditProvider.cleanTimestamps s.requestTimestamps now).getD 0 0 ∈
          RedditProvider.cleanTimestamps s.requestTimestamps now := by
        rw [List.getD_eq_getElem _ 0 hke]
        exact List.getElem_mem hke
      have he_now : (RedditProvider.cleanTimestamps s.requestTimestamps now).getD 0 0 ≤ now :=
        hclmem_now _ he_mem
      have hwaited : 600000 ≤ tp -
          (RedditProvider.cleanTimestamps s.requestTimestamps now).getD 0 0 := by
        have hin : now - (RedditProvider.cleanTimestamps s.requestTimestamps now).getD 0 0 <
            10 * 60 * 1000 := by
          have := List.of_mem_filter he_mem
          simpa using this
        have hmw : RedditProvider.tenMinuteWait
            (RedditProvider.cleanTimestamps s.requestTimestamps now) now =
            10 * 60 * 1000 -
              (now - (RedditProvider.cleanTimestamps s.requestTimestamps now).getD 0 0) := by
          rw [RedditProvider.tenMinuteWait, if_pos h996]
        have hreq := htp
        rw [RedditProvider.requiredWait, hmw] at hreq
        omega
      apply le_trans (sorted_countP_gt_le _ hclsort 0 hke _ ?_) (by
        simp only [RedditProvider.MAX_REQUESTS_PER_10_MIN] at h996
        omega)
      intro x hx
      simp only [RedditProvider.inWindow, Bool.and_eq_false_iff, decide_eq_false_iff_not]
      right
      omega
    · have := List.countP_le_length
        (p := RedditProvider.inWindow 600000 tp)
        (l := RedditProvider.cleanTimestamps s.requestTimestamps now)
      simp only [RedditProvider.MAX_REQUESTS_PER_10_MIN, not_le] at h996
      simp only [RedditProvider.windowCount]
      omega
  -- assemble the new invariant
  refine ⟨?_, ?_, ?_, ?_, ?_⟩
  · simp only [RedditProvider.checkRateLimit]
    refine List.pairwise_append.mpr ⟨hclsort, by simp, ?_⟩
    intro a ha b hb
    simp only [List.mem_singleton] at hb
    subst hb
    exact le_trans (hclmem_now a ha) hnowtp
  · simp only [RedditProvider.checkRateLimit]
    intro x hx
    rcases List.mem_append.mp hx with hx1 | hx1
    · exact le_trans (hclmem_now x hx1) hnowtp
    · simp only [List.mem_singleton] at hx1; omega
  · intro x hx
    rcases List.mem_append.mp hx with hx1 | hx1
    · exact le_trans (hhist_now x hx1) hnowtp
    · simp only [List.mem_singleton] at hx1
      simp only [RedditProvider.checkRateLimit]
      omega
  · intro now2 h2
    simp only [RedditProvider.checkRateLimit] at h2 ⊢
    rw [cleanTimestamps_append, cleanTimestamps_append, hcl,
      cleanTimestamps_clean hist now now2 (le_trans hnowtp h2) hhist_now]
  · intro t
    have happ60 := windowCount_append_single hist 60000 t tp
    have happ10 := windowCount_append_single hist 600000 t tp
    have hbd : ∀ x ∈ hist, x ≤ tp := fun x hx => le_trans (hhist_now x hx) hnowtp
    by_cases hlt : t < tp
    · have hnotin : RedditProvider.inWindow 60000 t tp = false := by
        simp only [RedditProvider.inWindow, Bool.and_eq_false_iff,
          decide_eq_false_iff_not]
        left; omega
      have hnotin2 : RedditProvider.inWindow 600000 t tp = false := by
        simp only [RedditProvider.inWindow, Bool.and_eq_false_iff,
          decide_eq_false_iff_not]
        left; omega
      rw [happ60, happ10, hnotin, hnotin2]
      simp only [if_neg Bool.false_ne_true]
      have := hwin t
      omega
    · have htle : tp ≤ t := by omega
      have hm60 := windowCount_mono_t hist 60000 tp t hbd htle
      have hm10 := windowCount_mono_t hist 600000 tp t hbd htle
      have hc60 := hchop 60000 (by norm_num)
      have hc10 := hchop 600000 (by norm_num)
      rw [happ60, happ10]
      have hif : (if RedditProvider.inWindow 60000 t tp then 1 else 0) ≤ 1 := by
        split_ifs <;> omega
      have hif2 : (if RedditProvider.inWindow 600000 t tp then 1 else 0) ≤ 1 := by
        split_ifs <;> omega
      omega

theorem rateInvariant_initial : rateInvariant RedditProvider.initialRateState [] := by
  refine ⟨by simp [RedditProvider.initialRateState, RedditProvider.cleanTimestamps],
    by simp [RedditProvider.initialRateState],
    by simp,
    fun now _ => by simp [RedditProvider.initialRateState, RedditProvider.cleanTimestamps],
    fun t => by simp [RedditProvider.windowCount]⟩

theorem validEvents_invariant (events : List (ℕ × ℕ)) :
    ∀ (s : RedditProvider.RateState) (hist : List ℕ),
      rateInvariant s hist → RedditProvider.validEvents s events →
      ∀ t, RedditProvider.windowCount (hist ++ events.map Prod.snd) 60000 t ≤ 100 ∧
        RedditProvider.windowCount (hist ++ events.map Prod.snd) 600000 t ≤ 996 := by
  induction events with
  | nil =>
    intro s hist hinv _ t
    simpa using hinv.2.2.2.2 t
  | cons e es ih =>
    intro s hist hinv hv t
    rw [RedditProvider.validEvents] at hv
    obtain ⟨h1, h2, h3⟩ := hv
    have hstep := rateInvariant_step s hist e.1 e.2 hinv h1 h2
    have hres := ih (RedditProvider.checkRateLimit s e.1 e.2) (hist ++ [e.2]) hstep h3 t
    simpa [List.append_assoc] using hres

/-- C2: along every well-formed sequence of checkRateLimit calls (calls
are sequential and each pushes its timestamp only after the sleeps the
code awaits), the number of allowed requests whose timestamps lie within
any rolling 60-second window never exceeds 100 and within any rolling
10-minute window never exceeds 996. -/
theorem C2_rate_ceiling (events : List (ℕ × ℕ))
    (hv : RedditProvider.validEvents RedditProvider.initialRateState events) (t : ℕ) :
    RedditProvider.windowCount (events.map Prod.snd) 60000 t ≤
      RedditProvider.MAX_REQUESTS_PER_MINUTE ∧
    RedditProvider.windowCount (events.map Prod.snd) 600000 t ≤
      RedditProvider.MAX_REQUESTS_PER_10_MIN := by
  have hres := validEvents_invariant events RedditProvider.initialRateState []
    rateInvariant_initial hv t
  simpa [RedditProvider.MAX_REQUESTS_PER_MINUTE,
    RedditProvider.MAX_REQUESTS_PER_10_MIN] using hres

theorem C2_rate_ceiling_witness :
    RedditProvider.windowCount ([(0, 600), (1300, 1300)].map Prod.snd) 60000 1300 ≤
      RedditProvider.MAX_REQUESTS_PER_MINUTE ∧
    RedditProvider.windowCount ([(0, 600), (1300, 1300)].map Prod.snd) 600000 1300 ≤
      RedditProvider.MAX_REQUESTS_PER_10_MIN :=
  C2_rate_ceiling [(0, 600), (1300, 1300)]
    (by
      simp only [RedditProvider.validEvents]
      refine ⟨by decide, by decide, by decide, by decide, trivial⟩)
    1300
